import Mathlib

/-!
Shallow embedding of the CostNorm collect_network_info repository core:
the CloudTrail event normalizer and gap analyzer, the HA subnet and
route-table selectors and the endpoint existence checker from
vpc_endpoint_checker.py, and the propose_creation / execute_creation /
block_actions branches of the Slack-driven workflow in
lambda_test/lambda_function.py.

Strings that only need equality tests are modelled as Lean String.
The principal identity and the instance-id filter are modelled as
List Char so that substring containment (the Python in operator on str)
can be reasoned about directly.
-/

deriving instance DecidableEq for Except

namespace CollectNetworkInfo

/-- Python substring helper: isPrefixL n h is true when n is a prefix of h
(models startswith, used to build the in operator). -/
def isPrefixL : List Char → List Char → Bool
  | [], _ => true
  | _ :: _, [] => false
  | a :: as, b :: bs => a == b && isPrefixL as bs

/-- Python str containment: containsL n h models (n in h) for strings,
true when n occurs as a contiguous substring of h. -/
def containsL : List Char → List Char → Bool
  | n, [] => n.isEmpty
  | n, h :: t => isPrefixL n (h :: t) || containsL n t

theorem isPrefixL_nil (h : List Char) : isPrefixL [] h = true := by
  cases h <;> rfl

theorem containsL_nil_left (h : List Char) : containsL [] h = true := by
  cases h with
  | nil => rfl
  | cons a t => simp [containsL, isPrefixL_nil]

/-- If a string extended on the left by one character is a substring, so is
the string itself. -/
theorem containsL_of_cons {c : Char} {f p : List Char}
    (h : containsL (c :: f) p = true) : containsL f p = true := by
  induction p with
  | nil => simp [containsL, List.isEmpty] at h
  | cons b t ih =>
    simp only [containsL, Bool.or_eq_true] at h ⊢
    rcases h with h | h
    · simp only [isPrefixL, Bool.and_eq_true] at h
      cases f with
      | nil => right; exact containsL_nil_left t
      | cons f0 fs =>
        right
        cases t with
        | nil => simp [isPrefixL] at h
        | cons t0 ts =>
          simp only [containsL, Bool.or_eq_true]
          left; exact h.2
    · right; exact ih h

/-- TARGET_SERVICES from vpc_endpoint_checker.py: eventSource key mapped to
a short service label. -/
def TARGET_SERVICES : List (String × String) :=
  [("s3.amazonaws.com", "S3"), ("ecr.amazonaws.com", "ECR")]

/-- ENDPOINT_MISSING_THRESHOLD from vpc_endpoint_checker.py. -/
def ENDPOINT_MISSING_THRESHOLD : Nat := 5

/-- One parsed CloudTrailEvent JSON payload, restricted to the fields the
checker reads. Absent JSON fields are modelled as Option none; awsRegion
uses the empty string for both absent and empty (both are falsy in the
Python truthiness test and treated alike). -/
structure CTEvent where
  eventTime : String
  eventSource : Option String
  eventName : String
  sourceIPAddress : String
  awsRegion : String
  principalId : List Char
  vpcEndpointId : Option String
  userArn : Option String
  userName : Option String
  deriving Repr, DecidableEq

/-- Python truthiness of the vpcEndpointId field: present and non-empty. -/
def endpointTruthy : Option String → Bool
  | none => false
  | some s => !(s == "")

/-- The usedVpcEndpoint marker strings written by the checker. -/
def yesMark : String := "✅ Yes"

/-- The usedVpcEndpoint marker for calls that bypass the endpoint. -/
def noMark : String := "❌ No"

/-- One normalized record appended by
lookup_service_events_and_filter_by_instance (the dict built at
vpc_endpoint_checker.py lines 149-175). -/
structure TrafficRecord where
  eventTime : String
  service : String
  eventName : String
  sourceIPAddress : String
  vpcEndpointId : Option String
  usedVpcEndpoint : String
  user : String
  region : String
  deriving Repr, DecidableEq

/-- Per-event body of the collection loop in
lookup_service_events_and_filter_by_instance: a raw event is Option CTEvent
(none models a CloudTrailEvent payload whose JSON parse fails, skipped by
the except JSONDecodeError handler). Returns some record when the event is
kept, none when any filter drops it. The filt argument models
target_instance_id (none when not provided); the Python truthiness guard
(target_instance_id and ...) means an empty-string filter disables
filtering. -/
def processCT (filt : Option (List Char)) (e : CTEvent) : Option TrafficRecord :=
    match e.eventSource with
    | none => none
    | some src =>
      match TARGET_SERVICES.lookup src with
      | none => none
      | some svc =>
        if (match filt with
            | some f => !f.isEmpty && !containsL (':' :: f) e.principalId
            | none => false) then
          none
        else if e.awsRegion == "" then
          none
        else
          some
            { eventTime := e.eventTime
              service := svc
              eventName := e.eventName
              sourceIPAddress := e.sourceIPAddress
              vpcEndpointId := e.vpcEndpointId
              usedVpcEndpoint := if endpointTruthy e.vpcEndpointId then yesMark else noMark
              user := (e.userArn.getD (e.userName.getD "N/A"))
              region := e.awsRegion }

/-- The per-event step over the raw page entry: a payload whose JSON parse
fails (none) is skipped, a parsed payload goes through processCT. -/
def processEvent (filt : Option (List Char)) : Option CTEvent → Option TrafficRecord
  | none => none
  | some e => processCT filt e

/-- One page of the CloudTrail lookup_events paginator: either the page
fetch raises (InvalidTimeRangeException or a general API failure) or it
yields a list of raw events. -/
def TrailPage : Type := Except Unit (List (Option CTEvent))

/-- The pagination loop of lookup_service_events_and_filter_by_instance:
pages are drained in order accumulating kept records; an exception raised
while fetching any page escapes to the outer try/except, which discards
everything and returns an empty DataFrame. -/
def collectGo (filt : Option (List Char)) :
    List TrailPage → List TrafficRecord → List TrafficRecord
  | [], acc => acc
  | Except.error _ :: _, _ => []
  | Except.ok evs :: rest, acc =>
      collectGo filt rest (acc ++ evs.filterMap (processEvent filt))

/-- lookup_service_events_and_filter_by_instance, with the CloudTrail call
abstracted as the list of pages the paginator yields (CSV side effects
dropped; the empty-records early return produces the same empty list). -/
def lookup_service_events_and_filter_by_instance
    (filt : Option (List Char)) (pages : List TrailPage) : List TrafficRecord :=
  collectGo filt pages []

/-- analyze_endpoint_usage from vpc_endpoint_checker.py (lines 215-231):
filter records whose usedVpcEndpoint is the No marker, group by
(service, region), keep groups whose size meets the threshold. The result
is the list of ((service, region), count) pairs, one per distinct key of
the pandas groupby (the groupby emits each key once with its group size;
its key ordering plays no role in any property below). -/
def analyze_endpoint_usage (events : List TrafficRecord) (threshold : Nat) :
    List ((String × String) × Nat) :=
  let missing := events.filter (fun e => e.usedVpcEndpoint == noMark)
  let keys := (missing.map (fun e => (e.service, e.region))).dedup
  keys.filterMap (fun k =>
    let c := missing.countP (fun e => (e.service, e.region) == k)
    if threshold ≤ c then some (k, c) else none)

/-- The number of records of one (service, region) partition that did not
go through a VPC endpoint. -/
def missingCount (events : List TrafficRecord) (s r : String) : Nat :=
  (events.filter (fun e => e.usedVpcEndpoint == noMark)).countP
    (fun e => (e.service, e.region) == (s, r))

/-- Python truthiness for plain strings (used on ids read from API data). -/
def truthyStr (s : String) : Bool := !(s == "")

/-- Lexicographic comparison of character lists by code point, the order
Python sorted() uses on strings. -/
def charsLe : List Char → List Char → Bool
  | [], _ => true
  | _ :: _, [] => false
  | a :: as, b :: bs =>
    if a.toNat < b.toNat then true
    else if b.toNat < a.toNat then false
    else charsLe as bs

/-- Lexicographic string comparison. -/
def strLe (a b : String) : Bool := charsLe a.toList b.toList

/-- The Python sorted() builtin on a list of strings. -/
def sortStr (l : List String) : List String :=
  l.insertionSort (fun a b => strLe a b = true)

/-- One subnet as returned by describe_subnets, restricted to the fields
the selectors read; the empty string models an absent field (falsy). -/
structure Subnet where
  subnetId : String
  az : String
  state : String
  deriving Repr, DecidableEq

/-- Membership test of the subnets_by_az grouping in both selectors:
az truthy, subnet id truthy and state equal to available. -/
def subnetQualifies (s : Subnet) : Bool :=
  truthyStr s.az && truthyStr s.subnetId && s.state == "available"

/-- The subnets that enter the subnets_by_az dict. -/
def availSubnets (subs : List Subnet) : List Subnet :=
  subs.filter subnetQualifies

/-- The distinct keys of the subnets_by_az dict (their pre-sort order
plays no role: the selectors only consume them sorted). -/
def azKeys (subs : List Subnet) : List String :=
  ((availSubnets subs).map (fun s => s.az)).dedup

/-- The value list of subnets_by_az for one AZ, in insertion order. -/
def azGroup (subs : List Subnet) (az : String) : List String :=
  ((availSubnets subs).filter (fun s => s.az == az)).map (fun s => s.subnetId)

/-- sorted(subnets_by_az.keys()): AZ names in lexicographic order. -/
def sortedAzs (subs : List Subnet) : List String :=
  sortStr (azKeys subs)

/-- The selection loop of select_subnets_for_ha: walk the sorted AZs,
stop once max_az ids are selected, otherwise append the first subnet of
the AZ group (the group is nonempty for every key by construction, but the
code still guards it). -/
def subnetLoop (groups : String → List String) (maxAz : Nat) :
    List String → List String → List String
  | [], acc => acc
  | az :: rest, acc =>
    if maxAz ≤ acc.length then acc
    else
      match groups az with
      | [] => subnetLoop groups maxAz rest acc
      | s :: _ => subnetLoop groups maxAz rest (acc ++ [s])

/-- select_subnets_for_ha from vpc_endpoint_checker.py (lines 349-402):
returns the selected subnet ids, empty when the VPC has no available
subnet. -/
def select_subnets_for_ha (subs : List Subnet) (maxAz : Nat) : List String :=
  if (availSubnets subs).isEmpty then []
  else subnetLoop (azGroup subs) maxAz (sortedAzs subs) []

/-- One association entry of a route table (Main flag and optional
subnet id, empty string for absent). -/
structure RtAssoc where
  main : Bool
  subnetId : String
  deriving Repr, DecidableEq

/-- One route table as returned by describe_route_tables. -/
structure RouteTable where
  routeTableId : String
  associations : List RtAssoc
  deriving Repr, DecidableEq

/-- The subnet_to_rt_map construction order: all (subnet id, route table
id) pairs with a truthy subnet id, in route-table then association order.
A later pair overwrites an earlier one for the same subnet. -/
def flatAssocs (rts : List RouteTable) : List (String × String) :=
  rts.flatMap (fun rt =>
    rt.associations.filterMap (fun a =>
      if truthyStr a.subnetId then some (a.subnetId, rt.routeTableId) else none))

/-- subnet_to_rt_map lookup: the last write wins, hence the last matching
pair. -/
def subnetToRt (rts : List RouteTable) (s : String) : Option String :=
  (((flatAssocs rts).filter (fun p => p.1 == s)).getLast?).map (fun p => p.2)

/-- The main_route_table_id assignment loop: the id of the last route
table carrying a Main association (empty string when none was ever
assigned, matching the Python None default through truthiness). -/
def pyMainAssigned (rts : List RouteTable) : String :=
  (((rts.filter (fun rt => rt.associations.any (fun a => a.main))).getLast?).map
    (fun rt => rt.routeTableId)).getD ""

/-- The main route table id after the fallback block: keep the assigned id
when truthy, otherwise fall back to the first route table of the VPC;
none models the early return when the VPC has no route table at all. -/
def mainAfterFallback (rts : List RouteTable) : Option String :=
  if truthyStr (pyMainAssigned rts) then some (pyMainAssigned rts)
  else
    match rts.head? with
    | some rt0 => some rt0.routeTableId
    | none => none

/-- Python set insertion on the insertion-ordered list that models
selected_route_table_ids. -/
def insertDedup (sel : List String) (x : String) : List String :=
  if x ∈ sel then sel else sel ++ [x]

/-- The inner per-AZ scan of select_route_tables_for_ha: the route table
explicitly associated with the first mapped subnet of this AZ, if any. -/
def explicitRtForAz (subs : List Subnet) (rts : List RouteTable) (az : String) :
    Option String :=
  (azGroup subs az).findSome? (fun s => subnetToRt rts s)

/-- The per-AZ loop of select_route_tables_for_ha: break once the set
holds max_az ids; add the explicit table of the AZ when one exists, else
add the main table once (guarded by its truthiness and the added flag). -/
def rtLoop (explicitFor : String → Option String) (mid : String) (maxAz : Nat) :
    List String → List String → Bool → List String
  | [], sel, _ => sel
  | az :: rest, sel, am =>
    if maxAz ≤ sel.length then sel
    else
      match explicitFor az with
      | some rt => rtLoop explicitFor mid maxAz rest (insertDedup sel rt) am
      | none =>
        if truthyStr mid && !am then
          rtLoop explicitFor mid maxAz rest (insertDedup sel mid) true
        else rtLoop explicitFor mid maxAz rest sel am

/-- select_route_tables_for_ha from vpc_endpoint_checker.py (lines
406-518): empty when the VPC has no available subnet or no route table;
when the loop selected nothing (only possible with max_az zero) the final
fallback returns the main table alone if it is truthy. -/
def select_route_tables_for_ha (subs : List Subnet) (rts : List RouteTable)
    (maxAz : Nat) : List String :=
  if (azKeys subs).isEmpty then []
  else
    match mainAfterFallback rts with
    | none => []
    | some mid =>
      let fs := rtLoop (explicitRtForAz subs rts) mid maxAz (sortedAzs subs) [] false
      if fs.isEmpty then (if truthyStr mid then [mid] else []) else fs

/-- One VPC endpoint as returned by describe_vpc_endpoints for the
(vpc-id, service-name) filter pair. -/
structure VpcEndpoint where
  vpcEndpointId : String
  state : String
  deriving Repr, DecidableEq

/-- The endpoint states check_existing_endpoint treats as terminal. -/
def terminalStates : List String := ["deleted", "deleting", "failed"]

/-- check_existing_endpoint from vpc_endpoint_checker.py (lines 328-345),
with the describe call abstracted as its outcome: an API failure is caught
and turned into none (unknown), a successful response is filtered down to
the endpoints in a non-terminal state. -/
def check_existing_endpoint (resp : Except Unit (List VpcEndpoint)) :
    Option (List VpcEndpoint) :=
  match resp with
  | Except.error _ => none
  | Except.ok eps => some (eps.filter (fun ep => !(terminalStates.contains ep.state)))

/-- The network context resolved by get_instance_network_details: vpc,
subnet and security groups of the reference instance (the function
returns None unless all three are present and nonempty). -/
structure NetworkDetails where
  vpc_id : String
  subnet_id : String
  security_group_ids : List String
  deriving Repr, DecidableEq

/-- The AWS-side state one lambda invocation observes: the resolved
reference-instance context, the subnets and route tables of its VPC, and
the describe_vpc_endpoints outcome per (vpc id, service name) pair. -/
structure Infra where
  instanceDetails : Option NetworkDetails
  subnets : List Subnet
  routeTables : List RouteTable
  endpointsQuery : String → String → Except Unit (List VpcEndpoint)

/-- Python str.lower for the ASCII range, which covers the tracked
service labels the branches lower-case. -/
def lowerChar (c : Char) : Char :=
  if 65 ≤ c.toNat ∧ c.toNat ≤ 90 then Char.ofNat (c.toNat + 32) else c

/-- Lower-casing of a service label. -/
def strLower (s : String) : String := String.mk (s.data.map lowerChar)

/-- The service name built in the propose_creation branch
(lambda_function.py line 333). -/
def service_name_propose (service region : String) : String :=
  "com.amazonaws." ++ region ++ "." ++
    (if service == "ECR" then "ecr.dkr" else strLower service)

/-- The service name rebuilt in the execute_creation branch
(lambda_function.py line 533). -/
def service_name_execute (service region : String) : String :=
  "com.amazonaws." ++ region ++ "." ++
    (if service == "ECR" then "ecr.dkr" else strLower service)

/-- The keyword arguments of the create_vpc_endpoint call, as assembled by
the two lambda branches. Optional members are none when the branch never
sets the key. -/
structure CreationParams where
  vpcEndpointType : String
  vpcId : String
  serviceName : String
  tags : List (String × String)
  routeTableIds : Option (List String)
  subnetIds : Option (List String)
  securityGroupIds : Option (List String)
  privateDnsEnabled : Option Bool
  deriving Repr, DecidableEq

/-- One entry of the analysis_result list consumed by propose_creation. -/
structure GapItem where
  service : String
  region : String
  count : Nat
  deriving Repr, DecidableEq

/-- The button_value dict serialized into the Yes button of a proposal
(lambda_function.py lines 412-420). -/
structure ButtonValue where
  action : String
  instance_id : String
  region : String
  service : String
  vpc_id : String
  endpoint_type : String
  response_url : String
  deriving Repr, DecidableEq

/-- Outcome of the propose_creation branch for one analysis item. -/
inductive ProposeOutcome
  | malformedItem
  | regionMismatch
  | skippedExisting (endpointId : String)
  | selectionFailed (params : CreationParams)
  | proposedWithButton (params : CreationParams) (button : ButtonValue)
  deriving Repr, DecidableEq

/-- The propose_creation branch of lambda_handler for a single
analysis_result item (lambda_function.py lines 317-502), after the
network context of the reference instance has been resolved. The calls
into vpc_endpoint_utils are modelled by the identically named functions of
vpc_endpoint_checker.py embedded above. Note that the branch skips only
when the existence check returns a truthy (non-empty) list: the unknown
result none falls through to the proposal path exactly like an empty
list. -/
def proposeItem (infra : Infra) (instance_id region response_url : String)
    (nd : NetworkDetails) (item : GapItem) : ProposeOutcome :=
  if !(truthyStr item.service && truthyStr item.region) then .malformedItem
  else if !(item.region == region) then .regionMismatch
  else
    let endpoint_type := if item.service == "S3" then "Gateway" else "Interface"
    let sname := service_name_propose item.service region
    match check_existing_endpoint (infra.endpointsQuery nd.vpc_id sname) with
    | some (ep :: _) => .skippedExisting ep.vpcEndpointId
    | _ =>
      let baseParams : CreationParams :=
        { vpcEndpointType := endpoint_type
          vpcId := nd.vpc_id
          serviceName := sname
          tags := [("Name", nd.vpc_id ++ "-" ++ item.service ++ "-endpoint"),
                   ("CreatedFromReferenceInstance", instance_id)]
          routeTableIds := none
          subnetIds := none
          securityGroupIds := none
          privateDnsEnabled := none }
      let button : ButtonValue :=
        { action := "confirm_creation"
          instance_id := instance_id
          region := region
          service := item.service
          vpc_id := nd.vpc_id
          endpoint_type := endpoint_type
          response_url := response_url }
      if endpoint_type == "Gateway" then
        let rtids := select_route_tables_for_ha infra.subnets infra.routeTables 3
        if rtids.isEmpty then .selectionFailed baseParams
        else .proposedWithButton { baseParams with routeTableIds := some rtids } button
      else
        let snids := select_subnets_for_ha infra.subnets 3
        let withSg := { baseParams with
          securityGroupIds := some nd.security_group_ids
          privateDnsEnabled := some true }
        if snids.isEmpty then .selectionFailed withSg
        else .proposedWithButton { withSg with subnetIds := some snids } button

/-- The whole propose_creation branch: resolve the instance network
context (raising on failure) and process every analysis item against it. -/
def propose_creation (infra : Infra) (instance_id region response_url : String)
    (items : List GapItem) : Except String (List ProposeOutcome) :=
  match infra.instanceDetails with
  | none => Except.error "network details lookup failed"
  | some nd =>
      Except.ok (items.map (proposeItem infra instance_id region response_url nd))

/-- The execute_creation branch of lambda_handler (lambda_function.py
lines 521-597): rebuild the creation parameters from the payload fields,
re-resolve the instance network context, re-run the HA selector for the
payload endpoint type and issue the create call. The returned ok value is
the keyword-argument record of the create_vpc_endpoint call; error models
the raise paths reported through the notifier. -/
def execute_creation (infra : Infra)
    (instance_id region service vpc_id endpoint_type : String) :
    Except String CreationParams :=
  let sname := service_name_execute service region
  let baseParams : CreationParams :=
    { vpcEndpointType := endpoint_type
      vpcId := vpc_id
      serviceName := sname
      tags := [("Name", vpc_id ++ "-" ++ service ++ "-endpoint"),
               ("CreatedFromReferenceInstance", instance_id),
               ("Creator", "LambdaFunction")]
      routeTableIds := none
      subnetIds := none
      securityGroupIds := none
      privateDnsEnabled := none }
  match infra.instanceDetails with
  | none => Except.error "network details second lookup failed"
  | some nd =>
    if endpoint_type == "Gateway" then
      let rtids := select_route_tables_for_ha infra.subnets infra.routeTables 3
      if rtids.isEmpty then Except.error "route table selection failed"
      else Except.ok { baseParams with routeTableIds := some rtids }
    else if endpoint_type == "Interface" then
      let snids := select_subnets_for_ha infra.subnets 3
      if snids.isEmpty then Except.error "subnet selection failed"
      else if nd.security_group_ids.isEmpty then
        Except.error "no security groups on reference instance"
      else
        Except.ok { baseParams with
          subnetIds := some snids
          securityGroupIds := some nd.security_group_ids
          privateDnsEnabled := some true }
    else Except.error "unsupported endpoint type"

/-- json.dumps of the button_value dict, abstracted to the ordered
key-value structure it serializes (the JSON string round-trip over this
flat string map is lossless and is modelled as the identity on it). -/
def encodeButton (b : ButtonValue) : List (String × String) :=
  [("action", b.action), ("instance_id", b.instance_id), ("region", b.region),
   ("service", b.service), ("vpc_id", b.vpc_id),
   ("endpoint_type", b.endpoint_type), ("response_url", b.response_url)]

/-- The lambda_payload the block_actions branch hands to the
execute_creation invocation. -/
structure ExecPayload where
  action : String
  instance_id : String
  region : String
  service : String
  vpc_id : String
  endpoint_type : String
  response_url : String
  deriving Repr, DecidableEq

/-- The required-field read of the block_actions branch: dict get followed
by the any-not-truthy check, so a missing or empty value fails. -/
def reqField (kv : List (String × String)) (k : String) : Option String :=
  match kv.lookup k with
  | some s => if s == "" then none else some s
  | none => none

/-- The create_endpoint_yes handling of the block_actions branch
(lambda_function.py lines 692-732): accept the payload only when its
action tag is confirm_creation, rebuild the execute_creation payload from
the deserialized button value and fail when any required field is missing
or empty. -/
def handleConfirmYes (kv : List (String × String)) : Option ExecPayload :=
  match kv.lookup "action" with
  | some a =>
    if a == "confirm_creation" then
      match reqField kv "instance_id", reqField kv "region", reqField kv "service",
            reqField kv "vpc_id", reqField kv "endpoint_type",
            reqField kv "response_url" with
      | some i, some r, some s, some v, some t, some u =>
          some { action := "execute_creation", instance_id := i, region := r,
                 service := s, vpc_id := v, endpoint_type := t, response_url := u }
      | _, _, _, _, _, _ => none
    else none
  | none => none

/-- The full per-candidate chain propose_creation → Yes button →
execute_creation over one observed infrastructure state: some params
exactly when a create_vpc_endpoint call is issued at the end. -/
def pipelineCreate (infra : Infra) (instance_id region response_url : String)
    (nd : NetworkDetails) (item : GapItem) : Option CreationParams :=
  match proposeItem infra instance_id region response_url nd item with
  | .proposedWithButton _ b =>
    match handleConfirmYes (encodeButton b) with
    | some p =>
        (execute_creation infra p.instance_id p.region p.service p.vpc_id
          p.endpoint_type).toOption
    | none => none
  | _ => none

/-- Membership characterization of the gap analyzer output: an entry is
emitted for a key exactly when the key occurs among the missing-endpoint
records and its partition count meets the threshold, and the entry carries
that count. -/
theorem mem_analyze_endpoint_usage (events : List TrafficRecord) (t : Nat)
    (s r : String) (c : Nat) :
    (((s, r), c) ∈ analyze_endpoint_usage events t) ↔
      ((s, r) ∈ (events.filter (fun e => e.usedVpcEndpoint == noMark)).map
          (fun e => (e.service, e.region)) ∧
        c = missingCount events s r ∧ t ≤ c) := by
  simp only [analyze_endpoint_usage, missingCount, List.mem_filterMap, List.mem_dedup]
  constructor
  · rintro ⟨k, hk, hf⟩
    split at hf
    case isTrue h =>
      rw [Option.some_inj] at hf
      obtain ⟨hk2, hc⟩ := Prod.mk.injEq .. |>.mp hf
      subst hk2
      exact ⟨hk, hc.symm, hc ▸ h⟩
    case isFalse h => exact absurd hf (by simp)
  · rintro ⟨hmem, hc, htc⟩
    refine ⟨(s, r), hmem, ?_⟩
    have hle : t ≤ (events.filter (fun e => e.usedVpcEndpoint == noMark)).countP
        (fun e => (e.service, e.region) == (s, r)) := hc ▸ htc
    rw [if_pos hle, Option.some_inj]
    exact congrArg (Prod.mk (s, r)) hc.symm

/-- A record of one S3 call in region-a that bypassed the endpoint. -/
def recMissingS3 : TrafficRecord :=
  { eventTime := "t", service := "S3", eventName := "GetObject",
    sourceIPAddress := "ip", vpcEndpointId := none,
    usedVpcEndpoint := noMark, user := "u", region := "region-a" }

/-- A record of one S3 call in region-a that went through an endpoint. -/
def recUsedS3 : TrafficRecord :=
  { recMissingS3 with vpcEndpointId := some "vpce-1", usedVpcEndpoint := yesMark }

/-- Scenario window: six S3 calls in region-a, five lacking endpoint
usage. -/
def evScenario5 : List TrafficRecord :=
  List.replicate 5 recMissingS3 ++ [recUsedS3]

/-- Scenario window: six S3 calls in region-a, two lacking endpoint
usage. -/
def evScenario2 : List TrafficRecord :=
  List.replicate 2 recMissingS3 ++ List.replicate 4 recUsedS3

/-- C5 counterexample: at threshold zero the claim as stated fails. The
partition (S3, region-a) of the one-record input has missing count 0 ≥ 0,
so the claim demands a candidate for it, but the analyzer drops partitions
with no missing record before grouping and returns the empty result. -/
theorem gap_analyzer_zero_threshold_counterexample :
    ¬ ((("S3", "region-a") ∈ (analyze_endpoint_usage [recUsedS3] 0).map Prod.fst) ↔
       (("S3", "region-a") ∈ [recUsedS3].map (fun e => (e.service, e.region)) ∧
        0 ≤ missingCount [recUsedS3] "S3" "region-a")) := by decide

/-- C5 (amended): for every threshold of at least one, the analyzer emits
a candidate for exactly those (service, region) partitions whose count of
records lacking endpoint usage meets the threshold, with the candidate
count equal to that partition count, and empty input yields an empty
result rather than an error. -/
theorem gap_analyzer_exact_partitions (events : List TrafficRecord) (t : Nat)
    (ht : 1 ≤ t) :
    (∀ s r c, (((s, r), c) ∈ analyze_endpoint_usage events t) ↔
        (missingCount events s r = c ∧ t ≤ c)) ∧
      analyze_endpoint_usage ([] : List TrafficRecord) t = [] := by
  refine ⟨fun s r c => ?_, rfl⟩
  rw [mem_analyze_endpoint_usage]
  constructor
  · rintro ⟨-, hc, htc⟩
    exact ⟨hc.symm, htc⟩
  · rintro ⟨hc, htc⟩
    refine ⟨?_, hc.symm, htc⟩
    have hpos : 0 < missingCount events s r := by omega
    rw [missingCount, List.countP_pos_iff] at hpos
    obtain ⟨e, he, hbeq⟩ := hpos
    exact List.mem_map.mpr ⟨e, he, eq_of_beq hbeq⟩

/-- Witness for C5: the scenario with two missing calls at threshold five
yields no candidate, and the scenario with five missing calls yields the
candidate (S3, region-a) with count five. -/
theorem gap_analyzer_exact_partitions_witness :
    analyze_endpoint_usage evScenario2 5 = [] ∧
      (("S3", "region-a"), 5) ∈ analyze_endpoint_usage evScenario5 5 :=
  ⟨by decide,
   ((gap_analyzer_exact_partitions evScenario5 5 (by decide)).1
      "S3" "region-a" 5).mpr (by decide)⟩

/-- C6: lowering the threshold only grows the set of reported
(service, region) pairs. -/
theorem gap_analyzer_monotone (events : List TrafficRecord) (t1 t2 : Nat)
    (h12 : t1 ≤ t2) (s r : String)
    (hmem : (s, r) ∈ (analyze_endpoint_usage events t2).map Prod.fst) :
    (s, r) ∈ (analyze_endpoint_usage events t1).map Prod.fst := by
  rw [List.mem_map] at hmem ⊢
  obtain ⟨⟨k, c⟩, hkc, hfst⟩ := hmem
  simp only at hfst
  subst hfst
  rw [mem_analyze_endpoint_usage] at hkc
  obtain ⟨hm, hc, htc⟩ := hkc
  exact ⟨((s, r), c),
    (mem_analyze_endpoint_usage events t1 s r c).mpr ⟨hm, hc, le_trans h12 htc⟩, rfl⟩

/-- Witness for C6 at the five-missing scenario, thresholds 3 ≤ 5. -/
theorem gap_analyzer_monotone_witness :
    ("S3", "region-a") ∈ (analyze_endpoint_usage evScenario5 3).map Prod.fst :=
  gap_analyzer_monotone evScenario5 3 5 (by decide) "S3" "region-a" (by decide)

/-- A successful association-list lookup witnesses membership. -/
theorem lookup_mem {l : List (String × String)} {a b : String}
    (h : l.lookup a = some b) : (a, b) ∈ l := by
  induction l with
  | nil => simp [List.lookup] at h
  | cons p t ih =>
    obtain ⟨k, v⟩ := p
    rw [List.lookup] at h
    split at h
    case h_1 heq =>
      rw [Option.some_inj] at h
      subst h
      have hak : a = k := eq_of_beq heq
      subst hak
      exact List.mem_cons_self _ _
    case h_2 heq => exact List.mem_cons_of_mem _ (ih h)

/-- Inversion of a kept event: the source is tracked and maps to the
record service, the actor filter condition evaluated to false, and the
usedVpcEndpoint marker reflects the truthiness of the raw endpoint id. -/
theorem processEvent_some_inv {filt : Option (List Char)} {e : CTEvent}
    {rec : TrafficRecord} (h : processEvent filt (some e) = some rec) :
    (∃ src, e.eventSource = some src ∧
        TARGET_SERVICES.lookup src = some rec.service) ∧
      (∀ f, filt = some f → f.isEmpty = false →
        containsL (':' :: f) e.principalId = true) ∧
      rec.usedVpcEndpoint =
        (if endpointTruthy e.vpcEndpointId then yesMark else noMark) := by
  replace h : processCT filt e = some rec := h
  unfold processCT at h
  split at h
  next => exact absurd h (by simp)
  next src hsrc =>
    split at h
    next => exact absurd h (by simp)
    next svc hsvc =>
      split at h
      case isTrue hcond => exact absurd h (by simp)
      case isFalse hcond =>
        split at h
        case isTrue hreg => exact absurd h (by simp)
        case isFalse hreg =>
          rw [Option.some_inj] at h
          subst h
          refine ⟨⟨src, hsrc, hsvc⟩, ?_, rfl⟩
          intro f hf hemp
          subst hf
          have hcond2 :
              (!f.isEmpty && !containsL (':' :: f) e.principalId) = false :=
            Bool.eq_false_iff.mpr hcond
          simpa [hemp] using hcond2

/-- Any record in the collection output was produced by processEvent from
a raw event of a successfully fetched page. -/
theorem mem_collectGo {filt : Option (List Char)} {rec : TrafficRecord} :
    ∀ {pages : List TrailPage} {acc : List TrafficRecord},
      rec ∈ collectGo filt pages acc →
      rec ∈ acc ∨ ∃ ev evs, Except.ok evs ∈ pages ∧ ev ∈ evs ∧
        processEvent filt ev = some rec := by
  intro pages
  induction pages with
  | nil => intro acc h; exact Or.inl h
  | cons p rest ih =>
    intro acc h
    cases p with
    | error u => simp [collectGo] at h
    | ok evs =>
      rw [collectGo] at h
      rcases ih h with hacc | ⟨ev, evs2, hp, hev, hproc⟩
      · rcases List.mem_append.mp hacc with hl | hr
        · exact Or.inl hl
        · obtain ⟨ev, hev, hproc⟩ := List.mem_filterMap.mp hr
          exact Or.inr ⟨ev, evs, List.mem_cons_self _ _, hev, hproc⟩
      · exact Or.inr ⟨ev, evs2, List.mem_cons_of_mem _ hp, hev, hproc⟩

/-- C7: every record the normalizer emits has a tracked service; with an
actor filter set the raw principal identity of its source event contains
the filter string; and the endpoint-usage marker is the Yes marker exactly
when the raw event carried a truthy (present, non-empty) endpoint id. -/
theorem normalizer_tracked_filtered_flagged
    (filt : Option (List Char)) (pages : List TrailPage) (rec : TrafficRecord)
    (hmem : rec ∈ lookup_service_events_and_filter_by_instance filt pages) :
    (∃ src, (src, rec.service) ∈ TARGET_SERVICES) ∧
      ∃ e : CTEvent, processEvent filt (some e) = some rec ∧
        (∀ f, filt = some f → containsL f e.principalId = true) ∧
        (rec.usedVpcEndpoint = yesMark ↔ endpointTruthy e.vpcEndpointId = true) := by
  rcases mem_collectGo hmem with hacc | ⟨ev, evs, _, _, hproc⟩
  · simp at hacc
  · cases ev with
    | none => simp [processEvent] at hproc
    | some e =>
      obtain ⟨⟨src, _, hlook⟩, hfilt, hmark⟩ := processEvent_some_inv hproc
      refine ⟨⟨src, lookup_mem hlook⟩, e, hproc, ?_, ?_⟩
      · intro f hf
        cases f with
        | nil => exact containsL_nil_left _
        | cons a as => exact containsL_of_cons (hfilt (a :: as) hf rfl)
      · rw [hmark]
        by_cases htr : endpointTruthy e.vpcEndpointId
        · simp [htr]
        · simp only [Bool.not_eq_true] at htr
          simp [htr, yesMark, noMark]

/-- Concrete instance-id filter used by the witnesses below. -/
def fInst : List Char := "i-0abc".toList

/-- A tracked S3 event attributable to the filter instance (its principal
identity carries the colon-prefixed instance id). -/
def evTracked : CTEvent :=
  { eventTime := "t1", eventSource := some "s3.amazonaws.com",
    eventName := "GetObject", sourceIPAddress := "ip",
    awsRegion := "region-a", principalId := "AROAX:i-0abc".toList,
    vpcEndpointId := none, userArn := some "arn:role/i-0abc", userName := none }

/-- The record the normalizer emits for evTracked. -/
def recTracked : TrafficRecord :=
  { eventTime := "t1", service := "S3", eventName := "GetObject",
    sourceIPAddress := "ip", vpcEndpointId := none,
    usedVpcEndpoint := noMark, user := "arn:role/i-0abc", region := "region-a" }

/-- An event whose principal identity contains the filter value as a plain
substring but never directly after a colon. -/
def evNoColon : CTEvent :=
  { evTracked with
    principalId := "AROAXi-0abc".toList,
    userArn := some "arn:role/x" }

/-- The record the normalizer would emit for evNoColon when no actor
filter is set. -/
def recNoColon : TrafficRecord :=
  { recTracked with user := "arn:role/x" }

/-- Witness for C7 at a concrete page stream and filter. -/
theorem normalizer_tracked_filtered_flagged_witness :
    (∃ src, (src, recTracked.service) ∈ TARGET_SERVICES) ∧
      ∃ e : CTEvent, processEvent (some fInst) (some e) = some recTracked ∧
        (∀ f, some fInst = some f → containsL f e.principalId = true) ∧
        (recTracked.usedVpcEndpoint = yesMark ↔
          endpointTruthy e.vpcEndpointId = true) :=
  normalizer_tracked_filtered_flagged (some fInst)
    [Except.ok [some evTracked]] recTracked (by decide)

/-- C10: with a non-empty actor filter f, a raw event is kept only when
the colon-prefixed filter occurs in its principal identity, and this is
strictly stronger than plain containment of f: the concrete event whose
principal contains f without a preceding colon is dropped under the
filter although it is kept when no filter is set. -/
theorem actor_filter_requires_colon :
    (∀ (f : List Char) (e : CTEvent) (rec : TrafficRecord),
        f.isEmpty = false →
        processEvent (some f) (some e) = some rec →
        containsL (':' :: f) e.principalId = true) ∧
      (containsL fInst evNoColon.principalId = true ∧
       containsL (':' :: fInst) evNoColon.principalId = false ∧
       processEvent (some fInst) (some evNoColon) = none ∧
       processEvent none (some evNoColon) = some recNoColon) := by
  constructor
  · intro f e rec hemp hproc
    obtain ⟨-, hfilt, -⟩ := processEvent_some_inv hproc
    exact hfilt f rfl hemp
  · exact ⟨by decide, by decide, by decide, by decide⟩

/-- Witness for C10 applied at the kept concrete event. -/
theorem actor_filter_requires_colon_witness :
    containsL (':' :: fInst) evTracked.principalId = true :=
  actor_filter_requires_colon.1 fInst evTracked recTracked (by decide) (by decide)

/-- True exactly on pages whose fetch raised. -/
def pageFails : TrailPage → Bool
  | Except.error _ => true
  | Except.ok _ => false

/-- The raw events of a successfully fetched page. -/
def pageEvents : TrailPage → List (Option CTEvent)
  | Except.error _ => []
  | Except.ok evs => evs

/-- A page failure anywhere empties the whole collection pass. -/
theorem collectGo_eq_nil_of_fail {filt : Option (List Char)} :
    ∀ (pages : List TrailPage) (acc : List TrafficRecord),
      pages.any pageFails = true → collectGo filt pages acc = [] := by
  intro pages
  induction pages with
  | nil => intro acc h; simp at h
  | cons p rest ih =>
    intro acc h
    cases p with
    | error u => rfl
    | ok evs =>
      rw [collectGo]
      exact ih _ (by simpa [pageFails] using h)

/-- With no page failure the collection drains every page in order. -/
theorem collectGo_eq_of_ok {filt : Option (List Char)} :
    ∀ (pages : List TrailPage) (acc : List TrafficRecord),
      pages.any pageFails = false →
      collectGo filt pages acc =
        acc ++ (pages.flatMap pageEvents).filterMap (processEvent filt) := by
  intro pages
  induction pages with
  | nil => intro acc h; simp [collectGo]
  | cons p rest ih =>
    intro acc h
    cases p with
    | error u => simp [pageFails] at h
    | ok evs =>
      rw [collectGo, ih _ (by simpa [pageFails] using h)]
      simp [pageEvents, List.filterMap_append, List.append_assoc]

/-- C9 counterexample: the one-page collection returns the record of the
first page, but appending a failing second page makes the whole collection
return the empty result, discarding the first-page event, contrary to the
claim that only a first-page failure is fatal. -/
theorem collection_page_failure_counterexample :
    lookup_service_events_and_filter_by_instance none
        [Except.ok [some evTracked], Except.error ()] = [] ∧
      lookup_service_events_and_filter_by_instance none
        [Except.ok [some evTracked]] = [recTracked] := by
  exact ⟨rfl, by decide⟩

/-- C9 (amended): an invalid-time-range error or general API failure on
any page, first or later, aborts the whole collection pass with an empty
result (records from earlier pages are discarded); when every page fetch
succeeds the pass drains all pages. -/
theorem collection_aborts_on_any_page_failure
    (filt : Option (List Char)) (pages : List TrailPage) :
    (pages.any pageFails = true →
        lookup_service_events_and_filter_by_instance filt pages = []) ∧
      (pages.any pageFails = false →
        lookup_service_events_and_filter_by_instance filt pages =
          (pages.flatMap pageEvents).filterMap (processEvent filt)) := by
  constructor
  · intro h
    exact collectGo_eq_nil_of_fail pages [] h
  · intro h
    rw [lookup_service_events_and_filter_by_instance, collectGo_eq_of_ok pages [] h]
    rfl

/-- Witness for C9 (amended) at a concrete failing page stream. -/
theorem collection_aborts_on_any_page_failure_witness :
    lookup_service_events_and_filter_by_instance none
        [Except.ok [some evTracked], Except.error ()] = [] :=
  (collection_aborts_on_any_page_failure none
    [Except.ok [some evTracked], Except.error ()]).1 (by decide)

/-- The availability zone of a subnet id, looked up in the subnet
listing (used to state AZ-diversity of a returned id list). -/
def azOfIn (subs : List Subnet) (sid : String) : String :=
  ((subs.find? (fun s => s.subnetId == sid)).map (fun s => s.az)).getD ""

/-- Membership in the sorted AZ list coincides with membership in the
grouping keys. -/
theorem mem_sortedAzs {subs : List Subnet} {az : String} :
    az ∈ sortedAzs subs ↔ az ∈ azKeys subs :=
  (List.perm_insertionSort _ (azKeys subs)).mem_iff

/-- Every grouping key owns a nonempty group. -/
theorem azGroup_ne_nil {subs : List Subnet} {az : String}
    (haz : az ∈ azKeys subs) : azGroup subs az ≠ [] := by
  rw [azKeys, List.mem_dedup, List.mem_map] at haz
  obtain ⟨s, hs, hsaz⟩ := haz
  subst hsaz
  intro hnil
  rw [azGroup, List.map_eq_nil_iff] at hnil
  have : s ∈ (availSubnets subs).filter (fun t => t.az == s.az) :=
    List.mem_filter.mpr ⟨hs, by simp⟩
  rw [hnil] at this
  simp at this

/-- The selection loop with nonempty groups equals a take of the AZ list
mapped to each first group member. -/
theorem subnetLoop_eq_take_map (groups : String → List String) (maxAz : Nat) :
    ∀ (azs : List String) (acc : List String),
      (∀ az ∈ azs, groups az ≠ []) →
      subnetLoop groups maxAz azs acc =
        acc ++ (azs.take (maxAz - acc.length)).map (fun az => (groups az).headD "") := by
  intro azs
  induction azs with
  | nil => intro acc h; simp [subnetLoop]
  | cons az rest ih =>
    intro acc h
    rw [subnetLoop]
    by_cases hlen : maxAz ≤ acc.length
    · rw [if_pos hlen]
      have : maxAz - acc.length = 0 := Nat.sub_eq_zero_of_le hlen
      simp [this]
    · rw [if_neg hlen]
      cases hg : groups az with
      | nil => exact absurd hg (h az (List.mem_cons_self _ _))
      | cons s rest2 =>
        show subnetLoop groups maxAz rest (acc ++ [s]) = _
        rw [ih (acc ++ [s]) (fun a ha => h a (List.mem_cons_of_mem _ ha))]
        have harith : maxAz - acc.length = (maxAz - (acc ++ [s]).length) + 1 := by
          simp only [List.length_append, List.length_singleton]
          omega
        rw [harith, List.take_succ_cons, List.map_cons, List.append_assoc]
        simp [hg]

/-- select_subnets_for_ha characterized: the first available subnet of
each of the first maxAz AZs, AZs taken in sorted order. -/
theorem select_subnets_eq (subs : List Subnet) (maxAz : Nat) :
    select_subnets_for_ha subs maxAz =
      ((sortedAzs subs).take maxAz).map (fun az => (azGroup subs az).headD "") := by
  rw [select_subnets_for_ha]
  by_cases hav : (availSubnets subs).isEmpty
  · rw [if_pos hav]
    rw [List.isEmpty_iff] at hav
    have hkeys : azKeys subs = [] := by simp [azKeys, hav]
    have hsorted : sortedAzs subs = [] := by
      rw [sortedAzs, hkeys]
      rfl
    simp [hsorted]
  · rw [if_neg hav]
    rw [subnetLoop_eq_take_map (azGroup subs) maxAz (sortedAzs subs) []
      (fun az ha => azGroup_ne_nil (mem_sortedAzs.mp ha))]
    simp

/-- The first group member of a key maps back to its own AZ when subnet
ids are globally unique. -/
theorem azOfIn_headD {subs : List Subnet} {az : String}
    (hids : (subs.map (fun s => s.subnetId)).Nodup)
    (haz : az ∈ azKeys subs) :
    azOfIn subs ((azGroup subs az).headD "") = az := by
  have hne := azGroup_ne_nil haz
  cases hfil : (availSubnets subs).filter (fun s => s.az == az) with
  | nil => exact absurd (by simp [azGroup, hfil]) hne
  | cons s0 rest =>
    have hgroup : azGroup subs az = s0.subnetId :: rest.map (fun s => s.subnetId) := by
      simp [azGroup, hfil]
    rw [hgroup, List.headD_cons]
    have hs0 : s0 ∈ (availSubnets subs).filter (fun s => s.az == az) := by
      rw [hfil]; exact List.mem_cons_self _ _
    obtain ⟨hmem, haz0⟩ := List.mem_filter.mp hs0
    have haz0 : s0.az = az := eq_of_beq haz0
    have hsub : s0 ∈ subs := (List.mem_filter.mp hmem).1
    rw [azOfIn]
    cases hfind : subs.find? (fun s => s.subnetId == s0.subnetId) with
    | none =>
      have := List.find?_eq_none.mp hfind s0 hsub
      simp at this
    | some s1 =>
      have h1 : s1 ∈ subs := List.mem_of_find?_eq_some hfind
      have h2 := List.find?_some hfind
      have h2b : s1.subnetId = s0.subnetId := eq_of_beq h2
      have h10 : s1 = s0 := List.inj_on_of_nodup_map hids h1 hsub h2b
      subst h10
      simp [haz0]

/-- C4: with globally unique subnet ids, interface subnet selection
returns the first available subnet of each of the first maxAz AZs in
lexicographically sorted AZ order; its length is the minimum of maxAz and
the number of AZs owning an available subnet (hence at most maxAz, and
exactly the available count when that is smaller); no two returned
subnets share an AZ; and zero available subnets yield an empty result. -/
theorem subnet_selection_ha (subs : List Subnet) (maxAz : Nat)
    (hids : (subs.map (fun s => s.subnetId)).Nodup) :
    select_subnets_for_ha subs maxAz =
        ((sortedAzs subs).take maxAz).map (fun az => (azGroup subs az).headD "") ∧
      (select_subnets_for_ha subs maxAz).length = min maxAz (sortedAzs subs).length ∧
      ((select_subnets_for_ha subs maxAz).map (azOfIn subs)).Nodup ∧
      (availSubnets subs = [] → select_subnets_for_ha subs maxAz = []) := by
  refine ⟨select_subnets_eq subs maxAz, ?_, ?_, ?_⟩
  · rw [select_subnets_eq, List.length_map, List.length_take]
  · rw [select_subnets_eq, List.map_map]
    have hkeysnodup : (azKeys subs).Nodup := by
      rw [azKeys]
      exact List.nodup_dedup _
    have hnodup : (sortedAzs subs).Nodup :=
      ((List.perm_insertionSort _ (azKeys subs)).nodup_iff).mpr hkeysnodup
    have htake : ((sortedAzs subs).take maxAz).Nodup :=
      (List.take_sublist _ _).nodup hnodup
    have hcongr : ((sortedAzs subs).take maxAz).map
        ((azOfIn subs) ∘ (fun az => (azGroup subs az).headD "")) =
        (sortedAzs subs).take maxAz := by
      rw [show (sortedAzs subs).take maxAz =
          ((sortedAzs subs).take maxAz).map id by simp]
      rw [List.map_map]
      refine List.map_congr_left (fun az ha => ?_)
      have : az ∈ azKeys subs := by
        simp only [List.map_id] at ha
        exact mem_sortedAzs.mp ((List.take_sublist _ _).mem ha)
      simp only [Function.comp_apply, List.map_id, id_eq]
      exact azOfIn_headD hids this
    rw [hcongr]
    exact htake
  · intro hav
    simp [select_subnets_for_ha, hav]

/-- Demo VPC for the witnesses: available subnets in AZs c, a, c, b (two
in c) plus one pending subnet. -/
def demoSubs : List Subnet :=
  [{ subnetId := "sn-c1", az := "c", state := "available" },
   { subnetId := "sn-a1", az := "a", state := "available" },
   { subnetId := "sn-c2", az := "c", state := "available" },
   { subnetId := "sn-b1", az := "b", state := "available" },
   { subnetId := "sn-p1", az := "a", state := "pending" }]

/-- Witness for C4: on the demo VPC with maxAz three the selection is one
subnet per distinct AZ in sorted AZ order, never two from AZ c, and the
returned AZs are pairwise distinct. -/
theorem subnet_selection_ha_witness :
    select_subnets_for_ha demoSubs 3 = ["sn-a1", "sn-b1", "sn-c1"] ∧
      ((select_subnets_for_ha demoSubs 3).map (azOfIn demoSubs)).Nodup :=
  ⟨by decide, (subnet_selection_ha demoSubs 3 (by decide)).2.2.1⟩

/-- Membership after a set insertion. -/
theorem mem_insertDedup {sel : List String} {x y : String} :
    y ∈ insertDedup sel x ↔ y ∈ sel ∨ y = x := by
  rw [insertDedup]
  split
  case isTrue h =>
    exact ⟨Or.inl, fun hh => hh.elim id (fun he => he ▸ h)⟩
  case isFalse h =>
    simp [List.mem_append]

/-- Set insertion never shrinks the selection. -/
theorem length_le_insertDedup (sel : List String) (x : String) :
    sel.length ≤ (insertDedup sel x).length := by
  rw [insertDedup]
  split
  · exact le_refl _
  · simp

/-- Set insertion preserves distinctness. -/
theorem nodup_insertDedup {sel : List String} (x : String) (h : sel.Nodup) :
    (insertDedup sel x).Nodup := by
  rw [insertDedup]
  split
  case isTrue _ => exact h
  case isFalse hx =>
    refine List.Nodup.append h (List.nodup_singleton x) ?_
    intro a ha hb
    rw [List.mem_singleton] at hb
    subst hb
    exact hx ha

theorem rtLoop_nil {ef : String → Option String} {mid : String} {maxAz : Nat}
    {sel : List String} {am : Bool} : rtLoop ef mid maxAz [] sel am = sel := rfl

theorem rtLoop_cons_break {ef : String → Option String} {mid az : String}
    {maxAz : Nat} {rest sel : List String} {am : Bool}
    (h : maxAz ≤ sel.length) :
    rtLoop ef mid maxAz (az :: rest) sel am = sel := by
  rw [rtLoop, if_pos h]

theorem rtLoop_cons_explicit {ef : String → Option String} {mid az rt : String}
    {maxAz : Nat} {rest sel : List String} {am : Bool}
    (h : ¬ maxAz ≤ sel.length) (hef : ef az = some rt) :
    rtLoop ef mid maxAz (az :: rest) sel am =
      rtLoop ef mid maxAz rest (insertDedup sel rt) am := by
  rw [rtLoop, if_neg h]
  simp only [hef]

theorem rtLoop_cons_none_add {ef : String → Option String} {mid az : String}
    {maxAz : Nat} {rest sel : List String} {am : Bool}
    (h : ¬ maxAz ≤ sel.length) (hef : ef az = none)
    (hc : (truthyStr mid && !am) = true) :
    rtLoop ef mid maxAz (az :: rest) sel am =
      rtLoop ef mid maxAz rest (insertDedup sel mid) true := by
  rw [rtLoop, if_neg h]
  simp only [hef, hc, if_pos]

theorem rtLoop_cons_none_skip {ef : String → Option String} {mid az : String}
    {maxAz : Nat} {rest sel : List String} {am : Bool}
    (h : ¬ maxAz ≤ sel.length) (hef : ef az = none)
    (hc : (truthyStr mid && !am) = false) :
    rtLoop ef mid maxAz (az :: rest) sel am =
      rtLoop ef mid maxAz rest sel am := by
  rw [rtLoop, if_neg h]
  simp only [hef, hc]
  rfl

/-- Everything already selected stays selected through the loop. -/
theorem rtLoop_mem_mono {ef : String → Option String} {mid : String}
    {maxAz : Nat} :
    ∀ (azs sel : List String) (am : Bool) {x : String}, x ∈ sel →
      x ∈ rtLoop ef mid maxAz azs sel am := by
  intro azs
  induction azs with
  | nil => intro sel am x hx; exact hx
  | cons az rest ih =>
    intro sel am x hx
    by_cases h : maxAz ≤ sel.length
    · rw [rtLoop_cons_break h]; exact hx
    · cases hef : ef az with
      | some rt =>
        rw [rtLoop_cons_explicit h hef]
        exact ih _ _ (mem_insertDedup.mpr (Or.inl hx))
      | none =>
        cases hc : truthyStr mid && !am with
        | true =>
          rw [rtLoop_cons_none_add h hef hc]
          exact ih _ _ (mem_insertDedup.mpr (Or.inl hx))
        | false =>
          rw [rtLoop_cons_none_skip h hef hc]
          exact ih _ _ hx

/-- The loop never shrinks the selection. -/
theorem rtLoop_length_mono {ef : String → Option String} {mid : String}
    {maxAz : Nat} :
    ∀ (azs sel : List String) (am : Bool),
      sel.length ≤ (rtLoop ef mid maxAz azs sel am).length := by
  intro azs
  induction azs with
  | nil => intro sel am; exact le_refl _
  | cons az rest ih =>
    intro sel am
    by_cases h : maxAz ≤ sel.length
    · rw [rtLoop_cons_break h]
    · cases hef : ef az with
      | some rt =>
        rw [rtLoop_cons_explicit h hef]
        exact le_trans (length_le_insertDedup sel rt) (ih _ _)
      | none =>
        cases hc : truthyStr mid && !am with
        | true =>
          rw [rtLoop_cons_none_add h hef hc]
          exact le_trans (length_le_insertDedup sel mid) (ih _ _)
        | false =>
          rw [rtLoop_cons_none_skip h hef hc]
          exact ih _ _

/-- Everything the loop selects is either pre-selected, the main table,
or a table explicitly associated with a processed AZ. -/
theorem rtLoop_mem_inv {ef : String → Option String} {mid : String}
    {maxAz : Nat} :
    ∀ (azs sel : List String) (am : Bool) {x : String},
      x ∈ rtLoop ef mid maxAz azs sel am →
      x ∈ sel ∨ x = mid ∨ ∃ az ∈ azs, ef az = some x := by
  intro azs
  induction azs with
  | nil => intro sel am x hx; exact Or.inl hx
  | cons az rest ih =>
    intro sel am x hx
    by_cases h : maxAz ≤ sel.length
    · rw [rtLoop_cons_break h] at hx; exact Or.inl hx
    · cases hef : ef az with
      | some rt =>
        rw [rtLoop_cons_explicit h hef] at hx
        rcases ih _ _ hx with hs | hm | ⟨a, ha, hfa⟩
        · rcases mem_insertDedup.mp hs with hs2 | hs2
          · exact Or.inl hs2
          · exact Or.inr (Or.inr ⟨az, List.mem_cons_self _ _, hs2 ▸ hef⟩)
        · exact Or.inr (Or.inl hm)
        · exact Or.inr (Or.inr ⟨a, List.mem_cons_of_mem _ ha, hfa⟩)
      | none =>
        cases hc : truthyStr mid && !am with
        | true =>
          rw [rtLoop_cons_none_add h hef hc] at hx
          rcases ih _ _ hx with hs | hm | ⟨a, ha, hfa⟩
          · rcases mem_insertDedup.mp hs with hs2 | hs2
            · exact Or.inl hs2
            · exact Or.inr (Or.inl hs2)
          · exact Or.inr (Or.inl hm)
          · exact Or.inr (Or.inr ⟨a, List.mem_cons_of_mem _ ha, hfa⟩)
        | false =>
          rw [rtLoop_cons_none_skip h hef hc] at hx
          rcases ih _ _ hx with hs | hm | ⟨a, ha, hfa⟩
          · exact Or.inl hs
          · exact Or.inr (Or.inl hm)
          · exact Or.inr (Or.inr ⟨a, List.mem_cons_of_mem _ ha, hfa⟩)

/-- The loop keeps the selection free of duplicates: each route table,
the main table included, is added at most once. -/
theorem rtLoop_nodup {ef : String → Option String} {mid : String}
    {maxAz : Nat} :
    ∀ (azs sel : List String) (am : Bool), sel.Nodup →
      (rtLoop ef mid maxAz azs sel am).Nodup := by
  intro azs
  induction azs with
  | nil => intro sel am h; exact h
  | cons az rest ih =>
    intro sel am h
    by_cases hb : maxAz ≤ sel.length
    · rw [rtLoop_cons_break hb]; exact h
    · cases hef : ef az with
      | some rt =>
        rw [rtLoop_cons_explicit hb hef]
        exact ih _ _ (nodup_insertDedup rt h)
      | none =>
        cases hc : truthyStr mid && !am with
        | true =>
          rw [rtLoop_cons_none_add hb hef hc]
          exact ih _ _ (nodup_insertDedup mid h)
        | false =>
          rw [rtLoop_cons_none_skip hb hef hc]
          exact ih _ _ h

/-- When the loop never hits the max_az break (witnessed by the result
staying below max_az) every AZ of the list is served: its explicitly
associated table is selected when one exists, otherwise the main table is
in the selection. -/
theorem rtLoop_processed {ef : String → Option String} {mid : String}
    {maxAz : Nat} :
    ∀ (azs sel : List String) (am : Bool),
      (am = true → mid ∈ sel) → truthyStr mid = true →
      (rtLoop ef mid maxAz azs sel am).length < maxAz →
      ∀ az ∈ azs,
        (∀ t, ef az = some t → t ∈ rtLoop ef mid maxAz azs sel am) ∧
        (ef az = none → mid ∈ rtLoop ef mid maxAz azs sel am) := by
  intro azs
  induction azs with
  | nil => intro sel am hinv ht hlen az haz; simp at haz
  | cons az0 rest ih =>
    intro sel am hinv ht hlen az haz
    by_cases hb : maxAz ≤ sel.length
    · rw [rtLoop_cons_break hb] at hlen ⊢
      omega
    · cases hef : ef az0 with
      | some rt =>
        rw [rtLoop_cons_explicit hb hef] at hlen ⊢
        rcases List.mem_cons.mp haz with heq | htail
        · subst heq
          refine ⟨fun t htv => ?_, fun hn => absurd hef (by rw [hn]; simp)⟩
          rw [hef] at htv
          rw [Option.some_inj] at htv
          subst htv
          exact rtLoop_mem_mono _ _ _ (mem_insertDedup.mpr (Or.inr rfl))
        · exact ih _ _ (fun hm => mem_insertDedup.mpr (Or.inl (hinv hm))) ht hlen az htail
      | none =>
        cases hc : truthyStr mid && !am with
        | true =>
          rw [rtLoop_cons_none_add hb hef hc] at hlen ⊢
          rcases List.mem_cons.mp haz with heq | htail
          · subst heq
            refine ⟨fun t htv => absurd htv (by rw [hef]; simp), fun _ => ?_⟩
            exact rtLoop_mem_mono _ _ _ (mem_insertDedup.mpr (Or.inr rfl))
          · exact ih _ _ (fun _ => mem_insertDedup.mpr (Or.inr rfl)) ht hlen az htail
        | false =>
          have ham : am = true := by
            cases am with
            | true => rfl
            | false => rw [ht] at hc; simp at hc
          rw [rtLoop_cons_none_skip hb hef hc] at hlen ⊢
          rcases List.mem_cons.mp haz with heq | htail
          · subst heq
            refine ⟨fun t htv => absurd htv (by rw [hef]; simp), fun _ => ?_⟩
            exact rtLoop_mem_mono _ _ _ (hinv ham)
          · exact ih _ _ hinv ht hlen az htail

/-- Starting from an empty selection with a truthy main table and a
positive max_az, the first AZ always contributes a table. -/
theorem rtLoop_ne_nil {ef : String → Option String} {mid : String}
    {maxAz : Nat} (az : String) (rest : List String)
    (hpos : 0 < maxAz) (ht : truthyStr mid = true) :
    rtLoop ef mid maxAz (az :: rest) [] false ≠ [] := by
  have hb : ¬ maxAz ≤ ([] : List String).length := by simp; omega
  cases hef : ef az with
  | some rt =>
    rw [rtLoop_cons_explicit hb hef]
    intro hnil
    have : rt ∈ rtLoop ef mid maxAz rest (insertDedup [] rt) false :=
      rtLoop_mem_mono _ _ _ (mem_insertDedup.mpr (Or.inr rfl))
    rw [hnil] at this
    simp at this
  | none =>
    have hc : (truthyStr mid && !false) = true := by rw [ht]; rfl
    rw [rtLoop_cons_none_add hb hef hc]
    intro hnil
    have : mid ∈ rtLoop ef mid maxAz rest (insertDedup [] mid) true :=
      rtLoop_mem_mono _ _ _ (mem_insertDedup.mpr (Or.inr rfl))
    rw [hnil] at this
    simp at this

/-- Exhaustive unfolding of select_route_tables_for_ha into its four
outcome shapes. -/
theorem select_rt_unfold (subs : List Subnet) (rts : List RouteTable)
    (maxAz : Nat) :
    ((azKeys subs).isEmpty = true ∧
        select_route_tables_for_ha subs rts maxAz = []) ∨
      ((azKeys subs).isEmpty = false ∧ mainAfterFallback rts = none ∧
        select_route_tables_for_ha subs rts maxAz = []) ∨
      (∃ mid, (azKeys subs).isEmpty = false ∧
        mainAfterFallback rts = some mid ∧
        ((rtLoop (explicitRtForAz subs rts) mid maxAz (sortedAzs subs) [] false ≠ [] ∧
          select_route_tables_for_ha subs rts maxAz =
            rtLoop (explicitRtForAz subs rts) mid maxAz (sortedAzs subs) [] false) ∨
         (rtLoop (explicitRtForAz subs rts) mid maxAz (sortedAzs subs) [] false = [] ∧
          select_route_tables_for_ha subs rts maxAz =
            (if truthyStr mid then [mid] else [])))) := by
  by_cases hk : (azKeys subs).isEmpty
  · exact Or.inl ⟨hk, by rw [select_route_tables_for_ha, if_pos hk]⟩
  · cases hm : mainAfterFallback rts with
    | none =>
      refine Or.inr (Or.inl ⟨Bool.eq_false_iff.mpr hk, rfl, ?_⟩)
      rw [select_route_tables_for_ha, if_neg hk]
      simp only [hm]
    | some mid =>
      refine Or.inr (Or.inr ⟨mid, Bool.eq_false_iff.mpr hk, rfl, ?_⟩)
      by_cases hfs :
          (rtLoop (explicitRtForAz subs rts) mid maxAz (sortedAzs subs) [] false).isEmpty
      · refine Or.inr ⟨List.isEmpty_iff.mp hfs, ?_⟩
        rw [select_route_tables_for_ha, if_neg hk]
        simp only [hm, hfs, if_pos]
      · refine Or.inl ⟨fun hnil => hfs (by rw [hnil]; rfl), ?_⟩
        rw [select_route_tables_for_ha, if_neg hk]
        simp only [hm]
        rw [if_neg hfs]

/-- C3: gateway route-table selection over the AZs owning an available
subnet. The selection is duplicate-free; every selected table is either
the resolved default/main table or one explicitly associated with an
available subnet of some AZ; the default table appears at most once even
when several AZs lack explicit associations; with no explicit association
anywhere and no default table the selection is empty; and whenever the
max_az cap was not hit, every AZ (taken from the lexicographically sorted
AZ list) contributed its explicitly associated table when one exists and
the default table otherwise. -/
theorem route_table_selection_ha (subs : List Subnet) (rts : List RouteTable)
    (maxAz : Nat) :
    (select_route_tables_for_ha subs rts maxAz).Nodup ∧
      (∀ t, t ∈ select_route_tables_for_ha subs rts maxAz →
        mainAfterFallback rts = some t ∨
        ∃ az ∈ azKeys subs, explicitRtForAz subs rts az = some t) ∧
      (∀ mid, mainAfterFallback rts = some mid →
        (select_route_tables_for_ha subs rts maxAz).count mid ≤ 1) ∧
      ((∀ az ∈ azKeys subs, explicitRtForAz subs rts az = none) →
        mainAfterFallback rts = none →
        select_route_tables_for_ha subs rts maxAz = []) ∧
      (∀ mid, mainAfterFallback rts = some mid → truthyStr mid = true →
        (select_route_tables_for_ha subs rts maxAz).length < maxAz →
        ∀ az ∈ azKeys subs,
          (∀ t, explicitRtForAz subs rts az = some t →
            t ∈ select_route_tables_for_ha subs rts maxAz) ∧
          (explicitRtForAz subs rts az = none →
            mid ∈ select_route_tables_for_ha subs rts maxAz)) := by
  have hnd : (select_route_tables_for_ha subs rts maxAz).Nodup := by
    rcases select_rt_unfold subs rts maxAz with ⟨-, hr⟩ | ⟨-, -, hr⟩ |
      ⟨mid0, -, -, ⟨-, hr⟩ | ⟨-, hr⟩⟩
    · rw [hr]; exact List.nodup_nil
    · rw [hr]; exact List.nodup_nil
    · rw [hr]; exact rtLoop_nodup _ _ _ List.nodup_nil
    · rw [hr]; split <;> simp
  have hmem : ∀ t, t ∈ select_route_tables_for_ha subs rts maxAz →
      mainAfterFallback rts = some t ∨
      ∃ az ∈ azKeys subs, explicitRtForAz subs rts az = some t := by
    intro t ht
    rcases select_rt_unfold subs rts maxAz with ⟨-, hr⟩ | ⟨-, -, hr⟩ |
      ⟨mid0, -, hm0, ⟨-, hr⟩ | ⟨-, hr⟩⟩
    · rw [hr] at ht; simp at ht
    · rw [hr] at ht; simp at ht
    · rw [hr] at ht
      rcases rtLoop_mem_inv _ _ _ ht with hs | hm | ⟨az, haz, hfa⟩
      · simp at hs
      · exact Or.inl (hm ▸ hm0)
      · exact Or.inr ⟨az, mem_sortedAzs.mp haz, hfa⟩
    · rw [hr] at ht
      split at ht
      · rw [List.mem_singleton] at ht
        exact Or.inl (ht ▸ hm0)
      · simp at ht
  have hfail : (∀ az ∈ azKeys subs, explicitRtForAz subs rts az = none) →
      mainAfterFallback rts = none →
      select_route_tables_for_ha subs rts maxAz = [] := by
    intro _ hm
    rcases select_rt_unfold subs rts maxAz with ⟨-, hr⟩ | ⟨-, -, hr⟩ |
      ⟨mid0, -, hm0, -⟩
    · exact hr
    · exact hr
    · rw [hm] at hm0; cases hm0
  have hproc : ∀ mid, mainAfterFallback rts = some mid → truthyStr mid = true →
      (select_route_tables_for_ha subs rts maxAz).length < maxAz →
      ∀ az ∈ azKeys subs,
        (∀ t, explicitRtForAz subs rts az = some t →
          t ∈ select_route_tables_for_ha subs rts maxAz) ∧
        (explicitRtForAz subs rts az = none →
          mid ∈ select_route_tables_for_ha subs rts maxAz) := by
    intro mid hm ht hlen az haz
    rcases select_rt_unfold subs rts maxAz with ⟨hk, hr⟩ | ⟨-, hm2, -⟩ |
      ⟨mid0, hk, hm0, ⟨-, hr⟩ | ⟨hnil, hr⟩⟩
    · rw [List.isEmpty_iff] at hk
      rw [hk] at haz
      simp at haz
    · rw [hm2] at hm; cases hm
    · have hmid : mid0 = mid := by
        rw [hm0] at hm
        exact Option.some_inj.mp hm
      subst hmid
      rw [hr] at hlen ⊢
      exact rtLoop_processed (sortedAzs subs) [] false
        (fun h => (Bool.false_ne_true h).elim) ht hlen az (mem_sortedAzs.mpr haz)
    · have hmid : mid0 = mid := by
        rw [hm0] at hm
        exact Option.some_inj.mp hm
      subst hmid
      rw [hr, if_pos ht] at hlen
      have hkeysne : azKeys subs ≠ [] := by
        intro hnil2
        rw [hnil2] at hk
        simp at hk
      have hsne : sortedAzs subs ≠ [] := by
        intro hnil2
        have hp : (sortedAzs subs).Perm (azKeys subs) := List.perm_insertionSort _ _
        rw [hnil2] at hp
        exact hkeysne hp.symm.eq_nil
      obtain ⟨az0, rest0, hs0⟩ := List.exists_cons_of_ne_nil hsne
      have hne := @rtLoop_ne_nil (explicitRtForAz subs rts) mid0 maxAz
        az0 rest0 (by simp at hlen; omega) ht
      rw [← hs0] at hne
      exact absurd hnil hne
  exact ⟨hnd, hmem, fun mid _ => List.nodup_iff_count_le_one.mp hnd mid,
    hfail, hproc⟩

/-- Demo route tables: one explicitly associated with the AZ-a subnet,
one flagged as the VPC main table. -/
def demoRts : List RouteTable :=
  [{ routeTableId := "rtb-a",
     associations := [{ main := false, subnetId := "sn-a1" }] },
   { routeTableId := "rtb-main",
     associations := [{ main := true, subnetId := "" }] }]

/-- Witness for C3: on the demo VPC the main table is selected for the
AZs without explicit association but appears at most once. -/
theorem route_table_selection_ha_witness :
    "rtb-main" ∈ select_route_tables_for_ha demoSubs demoRts 9 ∧
      (select_route_tables_for_ha demoSubs demoRts 9).count "rtb-main" ≤ 1 :=
  ⟨((route_table_selection_ha demoSubs demoRts 9).2.2.2.2 "rtb-main" (by decide)
      (by decide) (by decide) "b" (by decide)).2 (by decide),
   (route_table_selection_ha demoSubs demoRts 9).2.2.1 "rtb-main" (by decide)⟩

/-- Network context of the demo reference instance. -/
def demoNd : NetworkDetails :=
  { vpc_id := "vpc-1", subnet_id := "sn-a1", security_group_ids := ["sg-1"] }

/-- A gap candidate for S3 traffic in region-a. -/
def itemS3 : GapItem := { service := "S3", region := "region-a", count := 6 }

/-- A gap candidate for ECR traffic in region-a. -/
def itemEcr : GapItem := { service := "ECR", region := "region-a", count := 7 }

/-- An existing endpoint in a non-terminal state. -/
def epAvail : VpcEndpoint := { vpcEndpointId := "vpce-9", state := "available" }

/-- Demo state in which every describe_vpc_endpoints call fails, so the
existence check can only answer unknown. -/
def infraUnknown : Infra :=
  { instanceDetails := some demoNd, subnets := demoSubs,
    routeTables := demoRts, endpointsQuery := fun _ _ => Except.error () }

/-- Demo state in which a matching endpoint already exists in the
available state. -/
def infraExisting : Infra :=
  { infraUnknown with endpointsQuery := fun _ _ => Except.ok [epAvail] }

/-- C1 counterexample: on a state where the existence query fails, the
check at the start of Proposing answers unknown (none), yet the chain
propose → confirm → execute still ends in a create_vpc_endpoint call. -/
theorem unknown_result_still_creates_counterexample :
    check_existing_endpoint (infraUnknown.endpointsQuery "vpc-1"
        (service_name_propose "S3" "region-a")) = none ∧
      (pipelineCreate infraUnknown "i-0abc" "region-a" "url" demoNd
        itemS3).isSome = true :=
  ⟨rfl, by decide⟩

/-- C1 (amended): the existence check distinguishes unknown (a failed
query, none) from empty (some with the non-terminal endpoints); when the
check at the start of Proposing returns a non-empty list, the candidate
outcome is skipped with that endpoint id and the chain issues no create
call (so the deterministic Proposing step yields skipped on every rerun);
but the lambda orchestrator blocks only on a truthy non-empty result,
treating unknown exactly like empty and proceeding to propose. -/
theorem proposing_skip_idempotent (infra : Infra) (iid rgn url : String)
    (nd : NetworkDetails) (item : GapItem) (ep : VpcEndpoint)
    (rest : List VpcEndpoint)
    (h1 : truthyStr item.service = true) (h2 : truthyStr item.region = true)
    (h3 : item.region = rgn)
    (hq : check_existing_endpoint
        (infra.endpointsQuery nd.vpc_id (service_name_propose item.service rgn)) =
      some (ep :: rest)) :
    check_existing_endpoint (Except.error ()) = none ∧
      (∀ eps, check_existing_endpoint (Except.ok eps) =
        some (eps.filter (fun e2 => !(terminalStates.contains e2.state)))) ∧
      proposeItem infra iid rgn url nd item =
        ProposeOutcome.skippedExisting ep.vpcEndpointId ∧
      pipelineCreate infra iid rgn url nd item = none := by
  subst h3
  have hskip : proposeItem infra iid item.region url nd item =
      ProposeOutcome.skippedExisting ep.vpcEndpointId := by
    rw [proposeItem, h1, h2]
    simp only [Bool.and_self, Bool.not_true, Bool.false_eq_true, if_false,
      beq_self_eq_true, if_neg]
    rw [hq]
  refine ⟨rfl, fun eps => rfl, hskip, ?_⟩
  rw [pipelineCreate, hskip]

/-- Witness for C1 (amended) on the state holding an available matching
endpoint. -/
theorem proposing_skip_idempotent_witness :
    check_existing_endpoint (Except.error ()) = none ∧
      (∀ eps, check_existing_endpoint (Except.ok eps) =
        some (eps.filter (fun e2 => !(terminalStates.contains e2.state)))) ∧
      proposeItem infraExisting "i-0abc" "region-a" "url" demoNd itemS3 =
        ProposeOutcome.skippedExisting epAvail.vpcEndpointId ∧
      pipelineCreate infraExisting "i-0abc" "region-a" "url" demoNd itemS3 = none :=
  proposing_skip_idempotent infraExisting "i-0abc" "region-a" "url" demoNd
    itemS3 epAvail [] (by decide) (by decide) rfl (by decide)

/-- C2 counterexample: with a matching endpoint already existing in the
available state at execution time, the execute_creation branch still
issues the create call; no existence check is performed in Executing. -/
theorem executing_no_existence_check_counterexample :
    check_existing_endpoint (infraExisting.endpointsQuery "vpc-1"
        (service_name_execute "S3" "region-a")) = some [epAvail] ∧
      (execute_creation infraExisting "i-0abc" "region-a" "S3" "vpc-1"
        "Gateway").toOption.isSome = true :=
  ⟨by decide, by decide⟩

/-- C2 (amended): the Executing step re-resolves the instance network
context and re-runs the HA selectors against the current state before
creating (failure of the re-resolution or re-selection aborts), but it
never consults the endpoint existence state: its outcome is invariant
under arbitrary changes to the describe_vpc_endpoints answer. -/
theorem executing_fresh_selection_no_existence_check (infra : Infra)
    (iid rgn svc vpc et : String)
    (q2 : String → String → Except Unit (List VpcEndpoint)) :
    (execute_creation { infra with endpointsQuery := q2 } iid rgn svc vpc et =
        execute_creation infra iid rgn svc vpc et) ∧
      (infra.instanceDetails = none →
        execute_creation infra iid rgn svc vpc et =
          Except.error "network details second lookup failed") ∧
      (∀ cp, execute_creation infra iid rgn svc vpc et = Except.ok cp →
        (et = "Gateway" → cp.routeTableIds =
          some (select_route_tables_for_ha infra.subnets infra.routeTables 3)) ∧
        (et = "Interface" → cp.subnetIds =
            some (select_subnets_for_ha infra.subnets 3) ∧
          ∃ nd, infra.instanceDetails = some nd ∧
            cp.securityGroupIds = some nd.security_group_ids)) := by
  refine ⟨rfl, ?_, ?_⟩
  · intro hnone
    rw [execute_creation, hnone]
  · intro cp hcp
    rw [execute_creation] at hcp
    cases hnd : infra.instanceDetails with
    | none => rw [hnd] at hcp; cases hcp
    | some nd =>
      rw [hnd] at hcp
      dsimp only at hcp
      split at hcp
      case isTrue hg =>
        have hg2 : et = "Gateway" := eq_of_beq hg
        split at hcp
        case isTrue => cases hcp
        case isFalse =>
          rw [Except.ok.injEq] at hcp
          subst hcp
          refine ⟨fun _ => rfl, fun h => ?_⟩
          rw [hg2] at h
          exact absurd h (by decide)
      case isFalse hg =>
        split at hcp
        case isTrue hi =>
          have hi2 : et = "Interface" := eq_of_beq hi
          split at hcp
          case isTrue => cases hcp
          case isFalse =>
            split at hcp
            case isTrue => cases hcp
            case isFalse =>
              rw [Except.ok.injEq] at hcp
              subst hcp
              refine ⟨fun h => ?_, fun _ => ⟨rfl, nd, rfl, rfl⟩⟩
              rw [hi2] at h
              exact absurd h (by decide)
        case isFalse hi => cases hcp

/-- The create-call arguments execute_creation produces on the demo
state for the S3 gateway payload. -/
def demoGatewayParams : CreationParams :=
  { vpcEndpointType := "Gateway"
    vpcId := "vpc-1"
    serviceName := "com.amazonaws.region-a.s3"
    tags := [("Name", "vpc-1-S3-endpoint"),
             ("CreatedFromReferenceInstance", "i-0abc"),
             ("Creator", "LambdaFunction")]
    routeTableIds := some ["rtb-a", "rtb-main"]
    subnetIds := none
    securityGroupIds := none
    privateDnsEnabled := none }

/-- Witness for C2 (amended): on the demo state the Executing outcome is
unchanged when the endpoint listing changes under it, and the issued
create call carries the freshly selected route tables. -/
theorem executing_fresh_selection_witness :
    execute_creation { infraExisting with endpointsQuery := fun _ _ => Except.ok [] }
        "i-0abc" "region-a" "S3" "vpc-1" "Gateway" =
      execute_creation infraExisting "i-0abc" "region-a" "S3" "vpc-1" "Gateway" ∧
    demoGatewayParams.routeTableIds =
      some (select_route_tables_for_ha infraExisting.subnets
        infraExisting.routeTables 3) :=
  ⟨(executing_fresh_selection_no_existence_check infraExisting "i-0abc" "region-a"
      "S3" "vpc-1" "Gateway" (fun _ _ => Except.ok [])).1,
   ((executing_fresh_selection_no_existence_check infraExisting "i-0abc" "region-a"
      "S3" "vpc-1" "Gateway" (fun _ _ => Except.ok [])).2.2 demoGatewayParams
      (by decide)).1 rfl⟩

/-- Available subnet in AZ a. -/
def subA1 : Subnet := { subnetId := "sn-a1", az := "a", state := "available" }

/-- Available subnet in AZ b. -/
def subB1 : Subnet := { subnetId := "sn-b1", az := "b", state := "available" }

/-- Demo state with one available subnet and no existing endpoint. -/
def infraOneSub : Infra :=
  { instanceDetails := some demoNd, subnets := [subA1],
    routeTables := demoRts, endpointsQuery := fun _ _ => Except.ok [] }

/-- The same state after a second subnet appeared in another AZ. -/
def infraTwoSub : Infra :=
  { infraOneSub with subnets := [subA1, subB1] }

/-- The button value serialized for the ECR proposal on either state. -/
def btnEcr : ButtonValue :=
  { action := "confirm_creation", instance_id := "i-0abc", region := "region-a",
    service := "ECR", vpc_id := "vpc-1", endpoint_type := "Interface",
    response_url := "url" }

/-- The Interface proposal parameters on the one-subnet state. -/
def paramsEcr1 : CreationParams :=
  { vpcEndpointType := "Interface"
    vpcId := "vpc-1"
    serviceName := "com.amazonaws.region-a.ecr.dkr"
    tags := [("Name", "vpc-1-ECR-endpoint"),
             ("CreatedFromReferenceInstance", "i-0abc")]
    routeTableIds := none
    subnetIds := some ["sn-a1"]
    securityGroupIds := some ["sg-1"]
    privateDnsEnabled := some true }

/-- The Interface proposal parameters on the two-subnet state. -/
def paramsEcr2 : CreationParams :=
  { paramsEcr1 with subnetIds := some ["sn-a1", "sn-b1"] }

/-- C8 counterexample: two proposals that differ in their HA selection
serialize to the identical callback token, and the token carries no
subnet ids, route table ids, service name or security group ids at all,
so the deserialized value cannot equal the full presented proposal. -/
theorem proposal_token_drops_selection_counterexample :
    proposeItem infraOneSub "i-0abc" "region-a" "url" demoNd itemEcr =
        ProposeOutcome.proposedWithButton paramsEcr1 btnEcr ∧
      proposeItem infraTwoSub "i-0abc" "region-a" "url" demoNd itemEcr =
        ProposeOutcome.proposedWithButton paramsEcr2 btnEcr ∧
      paramsEcr1.subnetIds ≠ paramsEcr2.subnetIds ∧
      (encodeButton btnEcr).lookup "subnet_ids" = none ∧
      (encodeButton btnEcr).lookup "route_table_ids" = none ∧
      (encodeButton btnEcr).lookup "service_name" = none ∧
      (encodeButton btnEcr).lookup "security_group_ids" = none := by
  refine ⟨by decide, by decide, by decide, rfl, rfl, rfl, rfl⟩

/-- C8 (amended): the callback token carries exactly the confirmation
action tag plus instance id, region, service, vpc id, endpoint type and
response url, and those fields round-trip exactly into the
execute_creation payload; the service name is re-derived at Executing by
the same rule used at Proposing; the HA selection and the security groups
are not carried but recomputed fresh from current state. -/
theorem callback_token_roundtrip (b : ButtonValue)
    (ha : b.action = "confirm_creation")
    (h1 : b.instance_id ≠ "") (h2 : b.region ≠ "") (h3 : b.service ≠ "")
    (h4 : b.vpc_id ≠ "") (h5 : b.endpoint_type ≠ "") (h6 : b.response_url ≠ "") :
    handleConfirmYes (encodeButton b) =
      some { action := "execute_creation", instance_id := b.instance_id,
             region := b.region, service := b.service, vpc_id := b.vpc_id,
             endpoint_type := b.endpoint_type, response_url := b.response_url } ∧
    (∀ svc rgn, service_name_execute svc rgn = service_name_propose svc rgn) := by
  constructor
  · rw [handleConfirmYes, encodeButton]
    simp only [List.lookup, beq_self_eq_true, reqField]
    simp only [show (("instance_id" : String) == "action") = false from rfl,
      show (("region" : String) == "action") = false from rfl,
      show (("region" : String) == "instance_id") = false from rfl,
      show (("service" : String) == "action") = false from rfl,
      show (("service" : String) == "instance_id") = false from rfl,
      show (("service" : String) == "region") = false from rfl,
      show (("vpc_id" : String) == "action") = false from rfl,
      show (("vpc_id" : String) == "instance_id") = false from rfl,
      show (("vpc_id" : String) == "region") = false from rfl,
      show (("vpc_id" : String) == "service") = false from rfl,
      show (("endpoint_type" : String) == "action") = false from rfl,
      show (("endpoint_type" : String) == "instance_id") = false from rfl,
      show (("endpoint_type" : String) == "region") = false from rfl,
      show (("endpoint_type" : String) == "service") = false from rfl,
      show (("endpoint_type" : String) == "vpc_id") = false from rfl,
      show (("response_url" : String) == "action") = false from rfl,
      show (("response_url" : String) == "instance_id") = false from rfl,
      show (("response_url" : String) == "region") = false from rfl,
      show (("response_url" : String) == "service") = false from rfl,
      show (("response_url" : String) == "vpc_id") = false from rfl,
      show (("response_url" : String) == "endpoint_type") = false from rfl]
    rw [ha]
    simp only [beq_self_eq_true, if_true]
    rw [if_neg (by simpa using h1), if_neg (by simpa using h2),
      if_neg (by simpa using h3), if_neg (by simpa using h4),
      if_neg (by simpa using h5), if_neg (by simpa using h6)]
  · intro svc rgn
    rfl

/-- Witness for C8 (amended) at the concrete ECR button value. -/
theorem callback_token_roundtrip_witness :
    handleConfirmYes (encodeButton btnEcr) =
      some { action := "execute_creation", instance_id := btnEcr.instance_id,
             region := btnEcr.region, service := btnEcr.service,
             vpc_id := btnEcr.vpc_id, endpoint_type := btnEcr.endpoint_type,
             response_url := btnEcr.response_url } :=
  (callback_token_roundtrip btnEcr rfl (by decide) (by decide) (by decide)
    (by decide) (by decide) (by decide)).1

end CollectNetworkInfo
